import Mathlib

/-!
# Shallow embedding of the jokefactory round/batch/market engine

This file embeds the data model and the repository/use-case operations of
the jokefactory backend (Go, `src/infra/repo/postgres_repository.go` and
`src/core/usecase`) as executable Lean definitions, and proves the
specification claims about them.

Modelling conventions:
* database tables are lists of row structures; SQL `UPDATE ... WHERE key`
  is a keyed map (`updateWhere`), `SELECT ... WHERE key LIMIT 1` is
  `List.find?`, `INSERT` is list append;
* `int64`/`int` database values are `Nat` (ids, timestamps, ratings) or
  `Int` (counters, budgets, where the SQL arithmetic is signed);
* Go `float64` averages are embedded as exact rationals (`Rat`);
* each transactional repository method takes a `TxFate` argument describing
  whether the transaction infrastructure succeeds: `.ok` (all statements and
  the final commit succeed), `.failBeforePool` (a statement inside the
  transaction fails before any pool-side statement ran, so the transaction
  rolls back), `.failCommit` (every statement succeeds but the final
  `tx.Commit` fails, so transaction-scoped writes roll back).  Statements
  executed on the *pool* rather than the transaction (the Go code calls
  `r.pool.Exec` inside `IncrementRatedStats` / `IncrementBatchCreated`)
  auto-commit immediately and survive a later rollback; the model applies
  them to the durable state in every fate in which they were reached.
-/

namespace JokeFactory

/-- Round lifecycle status (`round_status` enum). -/
inductive RoundStatus where
  | configured
  | active
  | ended
deriving DecidableEq, Repr

/-- Batch lifecycle status (`batch_status` enum). -/
inductive BatchStatus where
  | draft
  | submitted
  | rated
deriving DecidableEq, Repr

/-- User roles (`user_role` enum). -/
inductive Role where
  | instructor
  | jm
  | qc
  | customer
deriving DecidableEq, Repr

/-- QC tags (`qc_tag` enum). -/
inductive QCTag where
  | excellentStandout
  | genuinelyFunny
  | madeMeSmile
  | originalIdea
  | politeSmile
  | didntLand
  | notAcceptable
  | other
deriving DecidableEq, Repr

/-- Error taxonomy of `domain` (NotFound / Conflict / Validation / Forbidden),
plus `internal` for unrecognized store failures (failed statements, failed
commits) that the Go code propagates as opaque errors. -/
inductive ErrKind where
  | notFound
  | conflict
  | validation
  | forbidden
  | internal
deriving DecidableEq, Repr

/-- A typed failure: kind plus the message the Go code attaches. -/
structure Err where
  kind : ErrKind
  msg : String
deriving DecidableEq, Repr

instance {ε α : Type} [DecidableEq ε] [DecidableEq α] : DecidableEq (Except ε α) := fun x y =>
  match x, y with
  | .ok a, .ok b => if h : a = b then .isTrue (by rw [h]) else .isFalse (by simp [h])
  | .error a, .error b => if h : a = b then .isTrue (by rw [h]) else .isFalse (by simp [h])
  | .ok _, .error _ => .isFalse (by simp)
  | .error _, .ok _ => .isFalse (by simp)

/-- Fate of the transaction infrastructure during one repository call. -/
inductive TxFate where
  | ok
  | failBeforePool
  | failCommit
deriving DecidableEq, Repr

/-- A row of `rounds`. -/
structure Round where
  id : Nat
  status : RoundStatus
  customerBudget : Int
  batchSize : Nat
  startedAt : Option Nat
  endedAt : Option Nat
deriving DecidableEq, Repr

/-- A row of `users`. -/
structure User where
  id : Nat
  role : Option Role
  teamId : Option Nat
deriving DecidableEq, Repr

/-- A row of `batches`. -/
structure Batch where
  id : Nat
  roundId : Nat
  teamId : Nat
  status : BatchStatus
  submittedAt : Nat
  ratedAt : Option Nat
  avgScore : Option Rat
  passesCount : Option Nat
  feedback : Option String
  lockedAt : Option Nat
  lockedByQc : Option Nat
deriving DecidableEq, Repr

/-- A row of `jokes`. -/
structure Joke where
  id : Nat
  batchId : Nat
  text : String
deriving DecidableEq, Repr

/-- A row of `joke_ratings` (primary key `joke_id`). -/
structure RatingRow where
  jokeId : Nat
  qcUserId : Nat
  rating : Nat
  tag : QCTag
deriving DecidableEq, Repr

/-- One element of the `ratings` slice passed to `RateBatch`
(`domain.JokeRating` as used by the repository: joke id, rating, tag). -/
structure RatingInput where
  jokeId : Nat
  rating : Nat
  tag : QCTag
deriving DecidableEq, Repr

/-- A row of `published_jokes` (primary key `joke_id`). -/
structure PublishedRow where
  jokeId : Nat
  roundId : Nat
  teamId : Nat
deriving DecidableEq, Repr

/-- A row of `customer_round_budget` (primary key (round, customer)). -/
structure BudgetRow where
  roundId : Nat
  customerUserId : Nat
  startingBudget : Int
  remainingBudget : Int
deriving DecidableEq, Repr

/-- A row of `purchases`. -/
structure PurchaseRow where
  id : Nat
  roundId : Nat
  customerUserId : Nat
  jokeId : Nat
deriving DecidableEq, Repr

/-- A row of `team_rounds_state` (primary key (round, team)). -/
structure TeamStateRow where
  roundId : Nat
  teamId : Nat
  pointsEarned : Int
  batchesCreated : Int
  batchesRated : Int
  acceptedJokes : Int
deriving DecidableEq, Repr

/-- The durable (committed) database state. `nextBatchId`, `nextJokeId`,
`nextPurchaseId` model the BIGSERIAL sequences. -/
structure DB where
  rounds : List Round
  users : List User
  batches : List Batch
  jokes : List Joke
  ratings : List RatingRow
  published : List PublishedRow
  budgets : List BudgetRow
  purchases : List PurchaseRow
  teamStates : List TeamStateRow
  nextBatchId : Nat
  nextJokeId : Nat
  nextPurchaseId : Nat
deriving DecidableEq, Repr

/-- SQL `UPDATE ... SET (f) WHERE p`: apply `f` to every row matching `p`. -/
def updateWhere (p : α → Bool) (f : α → α) (l : List α) : List α :=
  l.map fun x => if p x then f x else x

-- Key lookups (SELECT ... WHERE primary key).

/-- `SELECT ... FROM rounds WHERE round_id = id`. -/
def DB.findRound (db : DB) (id : Nat) : Option Round :=
  db.rounds.find? fun r => r.id = id

/-- `SELECT ... FROM users WHERE user_id = id`. -/
def DB.findUser (db : DB) (id : Nat) : Option User :=
  db.users.find? fun u => u.id = id

/-- `SELECT ... FROM batches WHERE batch_id = id`. -/
def DB.findBatch (db : DB) (id : Nat) : Option Batch :=
  db.batches.find? fun b => b.id = id

/-- `SELECT ... FROM customer_round_budget WHERE round_id AND customer_user_id`. -/
def DB.findBudget (db : DB) (roundId customerId : Nat) : Option BudgetRow :=
  db.budgets.find? fun b => b.roundId = roundId ∧ b.customerUserId = customerId

/-- `SELECT ... FROM team_rounds_state WHERE round_id AND team_id`. -/
def DB.findTeamState (db : DB) (roundId teamId : Nat) : Option TeamStateRow :=
  db.teamStates.find? fun t => t.roundId = roundId ∧ t.teamId = teamId

/-- `SELECT team_id FROM published_jokes WHERE joke_id = jokeId`. -/
def DB.findPublished (db : DB) (jokeId : Nat) : Option PublishedRow :=
  db.published.find? fun p => p.jokeId = jokeId

/-- `SELECT ... FROM purchases WHERE round_id AND customer_user_id AND joke_id`. -/
def DB.findPurchase (db : DB) (roundId customerId jokeId : Nat) : Option PurchaseRow :=
  db.purchases.find? fun p =>
    p.roundId = roundId ∧ p.customerUserId = customerId ∧ p.jokeId = jokeId

/-- `SELECT ... FROM jokes WHERE batch_id = batchId ORDER BY joke_id`
(the model keeps `jokes` ordered by insertion = id order). -/
def DB.jokesOfBatch (db : DB) (batchId : Nat) : List Joke :=
  db.jokes.filter fun j => j.batchId = batchId

/-- `SELECT COUNT(*) FROM batches WHERE round_id = $1 AND status = 'SUBMITTED'`. -/
def DB.submittedCount (db : DB) (roundId : Nat) : Nat :=
  (db.batches.filter fun b => b.roundId = roundId ∧ b.status = .submitted).length

-- Team round state mutations (Go: EnsureTeamRoundState / IncrementBatchCreated /
-- IncrementRatedStats).  The two increment functions execute on `r.pool`, not on
-- the caller's transaction; the callers below account for that.

/-- `PostgresRepository.EnsureTeamRoundState`: INSERT ... ON CONFLICT DO NOTHING. -/
def ensureTeamRoundState (db : DB) (roundId teamId : Nat) : DB :=
  if (db.teamStates.any fun t => t.roundId = roundId ∧ t.teamId = teamId) then db
  else { db with teamStates := db.teamStates ++
          [{ roundId := roundId, teamId := teamId, pointsEarned := 0,
             batchesCreated := 0, batchesRated := 0, acceptedJokes := 0 }] }

/-- `PostgresRepository.IncrementBatchCreated`:
`UPDATE team_rounds_state SET batches_created = batches_created + 1 WHERE ...`. -/
def incrementBatchCreated (db : DB) (roundId teamId : Nat) : DB :=
  let upd := fun t : TeamStateRow => { t with batchesCreated := t.batchesCreated + 1 }
  let ts := updateWhere (fun t => t.roundId = roundId ∧ t.teamId = teamId) upd db.teamStates
  { db with teamStates := ts }

/-- `PostgresRepository.IncrementRatedStats`:
`UPDATE team_rounds_state SET batches_rated = batches_rated + 1,
accepted_jokes = accepted_jokes + $3, points_earned = points_earned + $4 WHERE ...`.
Note the unconditional `+ 1` on `batches_rated`. -/
def incrementRatedStats (db : DB) (roundId teamId : Nat)
    (passesCount pointsDelta : Int) : DB :=
  let upd := fun t : TeamStateRow =>
    { t with batchesRated := t.batchesRated + 1,
             acceptedJokes := t.acceptedJokes + passesCount,
             pointsEarned := t.pointsEarned + pointsDelta }
  let ts := updateWhere (fun t => t.roundId = roundId ∧ t.teamId = teamId) upd db.teamStates
  { db with teamStates := ts }

/-- `PostgresRepository.StartRound`: a single
`UPDATE rounds SET status = 'ACTIVE', customer_budget = $2, batch_size = $3,
started_at = COALESCE(started_at, now()), ended_at = NULL WHERE round_id = $1
RETURNING ...`; `NotFound` when no row matches. -/
def startRound (db : DB) (roundId : Nat) (customerBudget : Int)
    (batchSize : Nat) (now : Nat) : Except Err Round × DB :=
  match db.findRound roundId with
  | none => (.error ⟨.notFound, "round"⟩, db)
  | some rd =>
    let upd := fun r : Round =>
      { r with status := RoundStatus.active, customerBudget := customerBudget,
               batchSize := batchSize,
               startedAt := some (r.startedAt.getD now), endedAt := none }
    let rounds := updateWhere (fun r => r.id = roundId) upd db.rounds
    (.ok (upd rd), { db with rounds := rounds })

-- Batch submission (Go: PostgresRepository.CreateBatch, BatchService.Submit).

/-- `PostgresRepository.CreateBatch`: in one transaction, insert the batch in
SUBMITTED status with `submitted_at = now()`, insert one joke row per string;
then call `IncrementBatchCreated` — which runs on the *pool*, outside the
transaction — and commit.  On failure before the pool call the transaction
rolls back leaving the database unchanged; on commit failure the batch and
joke inserts roll back but the pool-side counter increment survives. -/
def createBatch (db : DB) (roundId teamId : Nat) (jokes : List String)
    (now : Nat) (fate : TxFate) : Except Err Batch × DB :=
  let b : Batch :=
    { id := db.nextBatchId, roundId := roundId, teamId := teamId,
      status := .submitted, submittedAt := now, ratedAt := none,
      avgScore := none, passesCount := none, feedback := none,
      lockedAt := none, lockedByQc := none }
  let newJokes := jokes.enum.map fun p =>
    ({ id := db.nextJokeId + p.1, batchId := b.id, text := p.2 } : Joke)
  match fate with
  | .failBeforePool => (.error ⟨.internal, "store failure"⟩, db)
  | .failCommit =>
    (.error ⟨.internal, "commit failed"⟩, incrementBatchCreated db roundId teamId)
  | .ok =>
    let db1 : DB :=
      { db with batches := db.batches ++ [b], jokes := db.jokes ++ newJokes,
                nextBatchId := db.nextBatchId + 1,
                nextJokeId := db.nextJokeId + jokes.length }
    (.ok b, incrementBatchCreated db1 roundId teamId)

/-- `BatchService.Submit`: validates (in source order) non-empty jokes, that
the caller exists and is a JM on `teamId`, that the round exists and is
ACTIVE, and that `len(jokes) == round.batch_size`; then ensures the team
round state row exists and creates the batch. -/
def submit (db : DB) (userId roundId teamId : Nat) (jokes : List String)
    (now : Nat) (fate : TxFate) : Except Err Batch × DB :=
  if jokes.length = 0 then
    (.error ⟨.validation, "at least one joke required"⟩, db)
  else
    match db.findUser userId with
    | none => (.error ⟨.notFound, "user"⟩, db)
    | some u =>
      if u.role ≠ some Role.jm then
        (.error ⟨.forbidden, "user must be JM"⟩, db)
      else if u.teamId ≠ some teamId then
        (.error ⟨.forbidden, "user not on this team"⟩, db)
      else
        match db.findRound roundId with
        | none => (.error ⟨.notFound, "round"⟩, db)
        | some round =>
          if round.status ≠ RoundStatus.active then
            (.error ⟨.conflict, "round not active"⟩, db)
          else if jokes.length ≠ round.batchSize then
            (.error ⟨.validation, "expected batch_size jokes"⟩, db)
          else
            createBatch (ensureTeamRoundState db roundId teamId) roundId teamId jokes now fate

-- QC queue (Go: PostgresRepository.GetNextBatchForQC).

/-- The batches eligible for this QC in `GetNextBatchForQC`:
`WHERE round_id = $1 AND status = 'SUBMITTED' AND
(locked_by_qc IS NULL OR locked_by_qc = $2)`. -/
def eligibleBatches (db : DB) (roundId qcUserId : Nat) : List Batch :=
  db.batches.filter fun b =>
    b.roundId = roundId ∧ b.status = BatchStatus.submitted ∧
      (b.lockedByQc = none ∨ b.lockedByQc = some qcUserId)

/-- `ORDER BY submitted_at ASC ... LIMIT 1`: a batch with minimal
`submitted_at` (first in row order among ties). -/
def minSubmitted : List Batch → Option Batch
  | [] => none
  | b :: bs =>
    match minSubmitted bs with
    | none => some b
    | some m => if b.submittedAt ≤ m.submittedAt then some b else some m

/-- `PostgresRepository.GetNextBatchForQC`: select the eligible batch with
the earliest `submitted_at` (`FOR UPDATE SKIP LOCKED LIMIT 1`); fail
`NotFound` when none exists; otherwise stamp `locked_at = now()` and
`locked_by_qc = $2` on it, and return the (re-read, by primary key) batch,
its jokes ordered by joke id, and the count of still-SUBMITTED batches of the
round as of this transaction. -/
def getNextBatchForQC (db : DB) (roundId qcUserId : Nat) (now : Nat) :
    Except Err (Batch × List Joke × Nat) × DB :=
  match minSubmitted (eligibleBatches db roundId qcUserId) with
  | none => (.error ⟨.notFound, "batch"⟩, db)
  | some b0 =>
    let lock := fun b : Batch =>
      { b with lockedAt := some now, lockedByQc := some qcUserId }
    let batches := updateWhere (fun b => b.id = b0.id) lock db.batches
    let db1 : DB := { db with batches := batches }
    (.ok (lock b0, db.jokesOfBatch b0.id, db1.submittedCount roundId), db1)

-- Rating (Go: PostgresRepository.RateBatch).

/-- `SELECT rating FROM joke_ratings WHERE joke_id = jokeId` (primary key). -/
def ratingOf (rs : List RatingRow) (jokeId : Nat) : Option Nat :=
  (rs.find? fun r => r.jokeId = jokeId).map fun r => r.rating

/-- One `INSERT INTO joke_ratings ... ON CONFLICT (joke_id) DO UPDATE`:
replace the row with this joke id if present, else append. -/
def upsertRating (rs : List RatingRow) (row : RatingRow) : List RatingRow :=
  if rs.any fun r => r.jokeId = row.jokeId then
    updateWhere (fun r => r.jokeId = row.jokeId) (fun _ => row) rs
  else rs ++ [row]

/-- The rating-upsert loop of `RateBatch`, in input order. -/
def upsertRatings (rs : List RatingRow) (qcUserId : Nat)
    (inputs : List RatingInput) : List RatingRow :=
  inputs.foldl (fun acc i => upsertRating acc ⟨i.jokeId, qcUserId, i.rating, i.tag⟩) rs

/-- The publish step of `RateBatch`:
`INSERT INTO published_jokes (joke_id, round_id, team_id) SELECT joke_id, $2, $3
FROM jokes WHERE batch_id = $1 AND joke_id IN (SELECT joke_id FROM joke_ratings
WHERE joke_id = jokes.joke_id AND rating = 5) ON CONFLICT (joke_id) DO NOTHING
RETURNING joke_id`: the batch jokes whose (post-upsert) rating row is 5 and
that are not yet published. -/
def publishCandidates (jokes : List Joke) (published : List PublishedRow)
    (ratingsAfter : List RatingRow) (batchId : Nat) : List Nat :=
  let keep := fun j : Joke =>
    j.batchId = batchId ∧ ratingOf ratingsAfter j.id = some 5 ∧
      ¬ published.any fun p => p.jokeId = j.id
  (jokes.filter keep).map fun j => j.id

/-- `PostgresRepository.RateBatch`: in one transaction, re-read the batch
`FOR UPDATE` (NotFound when absent), fail Conflict when already RATED or when
locked by a different QC; upsert one rating row per input, counting `passes`
(ratings equal to 5) and the total; update the batch to RATED with
`avg = total / len(ratings)`, `passes_count`, feedback, clearing the lock;
insert the rated-5 publish rows; then call `IncrementRatedStats(round, team,
passes, 0)` — which runs on the *pool*, outside the transaction — and commit. -/
def rateBatch (db : DB) (batchId qcUserId : Nat) (inputs : List RatingInput)
    (feedback : Option String) (now : Nat) (fate : TxFate) :
    Except Err (Batch × List Nat) × DB :=
  match db.findBatch batchId with
  | none => (.error ⟨.notFound, "batch"⟩, db)
  | some b =>
    if b.status = BatchStatus.rated then
      (.error ⟨.conflict, "batch already rated"⟩, db)
    else if b.lockedByQc.getD qcUserId ≠ qcUserId then
      -- Go: `lockedBy != nil && *lockedBy != qcUserID`
      (.error ⟨.conflict, "not assigned to this qc"⟩, db)
    else
      let ratingsAfter := upsertRatings db.ratings qcUserId inputs
      let passes := (inputs.filter fun i => i.rating = 5).length
      let total : Nat := (inputs.map fun i => i.rating).sum
      let avg : Rat := (total : Rat) / (inputs.length : Rat)
      let upd := fun x : Batch =>
        { x with status := BatchStatus.rated, ratedAt := some now,
                 avgScore := some avg, passesCount := some passes,
                 feedback := feedback, lockedAt := none, lockedByQc := none }
      let pubIds := publishCandidates db.jokes db.published ratingsAfter batchId
      let pubRows := pubIds.map fun j =>
        ({ jokeId := j, roundId := b.roundId, teamId := b.teamId } : PublishedRow)
      match fate with
      | .failBeforePool => (.error ⟨.internal, "store failure"⟩, db)
      | .failCommit =>
        (.error ⟨.internal, "commit failed"⟩,
         incrementRatedStats db b.roundId b.teamId (passes : Int) 0)
      | .ok =>
        let db1 : DB :=
          { db with ratings := ratingsAfter,
                    batches := updateWhere (fun x => x.id = batchId) upd db.batches,
                    published := db.published ++ pubRows }
        (.ok (upd b, pubIds), incrementRatedStats db1 b.roundId b.teamId (passes : Int) 0)

-- Market (Go: EnsureCustomerBudget, BuyJoke, ReturnJoke).

/-- `PostgresRepository.EnsureCustomerBudget`:
`INSERT ... VALUES ($1, $2, $3, $3) ON CONFLICT (round_id, customer_user_id)
DO NOTHING`, then read the row back. -/
def ensureCustomerBudget (db : DB) (roundId customerId : Nat) (starting : Int) : DB :=
  if (db.budgets.any fun b => b.roundId = roundId ∧ b.customerUserId = customerId) then db
  else { db with budgets := db.budgets ++
          [{ roundId := roundId, customerUserId := customerId,
             startingBudget := starting, remainingBudget := starting }] }

/-- `UPDATE customer_round_budget SET remaining_budget = remaining_budget + d
WHERE round_id = $1 AND customer_user_id = $2`. -/
def adjustBudget (db : DB) (roundId customerId : Nat) (d : Int) : DB :=
  let upd := fun b : BudgetRow => { b with remainingBudget := b.remainingBudget + d }
  let bs := updateWhere (fun b => b.roundId = roundId ∧ b.customerUserId = customerId) upd db.budgets
  { db with budgets := bs }

/-- `PostgresRepository.BuyJoke`: in one transaction, read the budget row
(NotFound when absent), fail Conflict "insufficient budget" unless
`remaining_budget > 0` (the check is `RemainingBudget <= 0`); insert the
purchase row, surfacing the (round, customer, joke) uniqueness violation as
Conflict "already bought"; decrement the budget by one; look up the joke's
team in `published_jokes`; then call `IncrementRatedStats(round, team, 0, 1)`
— which runs on the *pool*, outside the transaction — and commit, returning
the purchase, the decremented budget and the team id. -/
def buyJoke (db : DB) (roundId customerId jokeId : Nat) (fate : TxFate) :
    Except Err (PurchaseRow × BudgetRow × Nat) × DB :=
  match db.findBudget roundId customerId with
  | none => (.error ⟨.notFound, "budget"⟩, db)
  | some budget =>
    if budget.remainingBudget ≤ 0 then
      (.error ⟨.conflict, "insufficient budget"⟩, db)
    else if (db.purchases.any fun p =>
        p.roundId = roundId ∧ p.customerUserId = customerId ∧ p.jokeId = jokeId) then
      (.error ⟨.conflict, "already bought"⟩, db)
    else
      let p : PurchaseRow :=
        { id := db.nextPurchaseId, roundId := roundId,
          customerUserId := customerId, jokeId := jokeId }
      match db.findPublished jokeId with
      | none => (.error ⟨.internal, "no published joke row"⟩, db)
      | some pj =>
        match fate with
        | .failBeforePool => (.error ⟨.internal, "store failure"⟩, db)
        | .failCommit =>
          (.error ⟨.internal, "commit failed"⟩,
           incrementRatedStats db roundId pj.teamId 0 1)
        | .ok =>
          let db1 : DB :=
            { db with purchases := db.purchases ++ [p],
                      nextPurchaseId := db.nextPurchaseId + 1 }
          let db2 := adjustBudget db1 roundId customerId (-1)
          (.ok (p, { budget with remainingBudget := budget.remainingBudget - 1 }, pj.teamId),
           incrementRatedStats db2 roundId pj.teamId 0 1)

/-- `PostgresRepository.ReturnJoke`: in one transaction, find the purchase
row `FOR UPDATE` (Conflict "not bought yet" when absent); delete it; add one
back to the budget; look up the joke's team in `published_jokes`; call
`IncrementRatedStats(round, team, 0, -1)` — which runs on the *pool*, outside
the transaction — re-read the budget, and commit. -/
def returnJoke (db : DB) (roundId customerId jokeId : Nat) (fate : TxFate) :
    Except Err (PurchaseRow × Option BudgetRow × Nat) × DB :=
  match db.findPurchase roundId customerId jokeId with
  | none => (.error ⟨.conflict, "not bought yet"⟩, db)
  | some p =>
    match db.findPublished jokeId with
    | none => (.error ⟨.internal, "no published joke row"⟩, db)
    | some pj =>
      match fate with
      | .failBeforePool => (.error ⟨.internal, "store failure"⟩, db)
      | .failCommit =>
        (.error ⟨.internal, "commit failed"⟩,
         incrementRatedStats db roundId pj.teamId 0 (-1))
      | .ok =>
        let db1 : DB :=
          { db with purchases := db.purchases.filter fun q => q.id ≠ p.id }
        let db2 := adjustBudget db1 roundId customerId 1
        (.ok (p, db2.findBudget roundId customerId, pj.teamId),
         incrementRatedStats db2 roundId pj.teamId 0 (-1))

-- Leaderboard (Go: PostgresRepository.GetRoundStats).

/-- One leaderboard row of `GetRoundStats`: `rank`, `team_id`, `points_earned`
(the other aggregate columns are independent of the ranking). -/
structure LBEntry where
  rank : Nat
  teamId : Nat
  points : Int
deriving DecidableEq, Repr

/-- The row order the query produces: `ORDER BY rank, team_id`, which on
`DENSE_RANK() OVER (ORDER BY points_earned DESC)` output is points
descending, ties by ascending team id. -/
def lbLe (a b : TeamStateRow) : Prop :=
  b.pointsEarned < a.pointsEarned ∨
    (b.pointsEarned = a.pointsEarned ∧ a.teamId ≤ b.teamId)

instance : DecidableRel lbLe := fun a b => by
  unfold lbLe
  exact inferInstance

instance : IsTotal TeamStateRow lbLe where
  total a b := by
    unfold lbLe
    rcases lt_trichotomy a.pointsEarned b.pointsEarned with h | h | h
    · exact Or.inr (Or.inl h)
    · rcases Nat.le_total a.teamId b.teamId with h2 | h2
      · exact Or.inl (Or.inr ⟨h.symm, h2⟩)
      · exact Or.inr (Or.inr ⟨h, h2⟩)
    · exact Or.inl (Or.inl h)

instance : IsTrans TeamStateRow lbLe where
  trans a b c hab hbc := by
    unfold lbLe at hab hbc ⊢
    rcases hab with h1 | ⟨h1, h2⟩ <;> rcases hbc with h3 | ⟨h3, h4⟩
    · exact Or.inl (h3.trans h1)
    · exact Or.inl (h3 ▸ h1)
    · exact Or.inl (h1 ▸ h3)
    · exact Or.inr ⟨h3.trans h1, le_trans h2 h4⟩

/-- `DENSE_RANK` evaluation over the remaining ordered rows: `prev` is the
previous row's order-by value, `rk` the previous row's rank; the rank stays
on ties and advances by exactly one when the value changes. -/
def assignRanksGo (prev : Int) (rk : Nat) : List TeamStateRow → List LBEntry
  | [] => []
  | t :: ts =>
    if t.pointsEarned = prev then
      ⟨rk, t.teamId, t.pointsEarned⟩ :: assignRanksGo prev rk ts
    else
      ⟨rk + 1, t.teamId, t.pointsEarned⟩ :: assignRanksGo t.pointsEarned (rk + 1) ts

/-- `DENSE_RANK() OVER (ORDER BY points_earned DESC)` applied to the ordered
team rows: the first row gets rank 1. -/
def assignRanks : List TeamStateRow → List LBEntry
  | [] => []
  | t :: ts => ⟨1, t.teamId, t.pointsEarned⟩ :: assignRanksGo t.pointsEarned 1 ts

/-- `PostgresRepository.GetRoundStats` leaderboard: the `team_rounds_state`
rows of the round, ordered by points descending (ties by team id), with
dense ranks. -/
def getRoundStats (db : DB) (roundId : Nat) : List LBEntry :=
  assignRanks (List.insertionSort lbLe (db.teamStates.filter fun t => t.roundId = roundId))

-- Concrete example databases used by counterexamples and witnesses.

/-- A small game state: one ACTIVE round (budget 5, batch size 2), a JM
(user 7, team 3), a submitted unlocked batch (id 1) with jokes 1 and 2, one
published joke (id 9) owned by team 3, a customer (id 5) with an established
budget, and a zeroed team-state row for (round 1, team 3). -/
def baseDB : DB :=
  { rounds := [{ id := 1, status := .active, customerBudget := 5, batchSize := 2,
                 startedAt := some 10, endedAt := none }],
    users := [{ id := 7, role := some .jm, teamId := some 3 }],
    batches := [{ id := 1, roundId := 1, teamId := 3, status := .submitted,
                  submittedAt := 20, ratedAt := none, avgScore := none,
                  passesCount := none, feedback := none, lockedAt := none,
                  lockedByQc := none }],
    jokes := [{ id := 1, batchId := 1, text := "a" },
              { id := 2, batchId := 1, text := "b" }],
    ratings := [],
    published := [{ jokeId := 9, roundId := 1, teamId := 3 }],
    budgets := [{ roundId := 1, customerUserId := 5, startingBudget := 5,
                  remainingBudget := 5 }],
    purchases := [],
    teamStates := [{ roundId := 1, teamId := 3, pointsEarned := 0,
                     batchesCreated := 0, batchesRated := 0, acceptedJokes := 0 }],
    nextBatchId := 2, nextJokeId := 3, nextPurchaseId := 1 }

/-- C4 counterexample state: the customer's remaining budget is exactly 1. -/
def exC4cx : DB :=
  { baseDB with budgets := [{ roundId := 1, customerUserId := 5,
                              startingBudget := 5, remainingBudget := 1 }] }

/-- The batch row with id 1 of `baseDB`, as stored. -/
def exC3batch : Batch :=
  { id := 1, roundId := 1, teamId := 3, status := .submitted, submittedAt := 20,
    ratedAt := none, avgScore := none, passesCount := none, feedback := none,
    lockedAt := none, lockedByQc := none }

/-- The team-state row of (round 1, team 3) in `baseDB`. -/
def exC3ts : TeamStateRow :=
  { roundId := 1, teamId := 3, pointsEarned := 0, batchesCreated := 0,
    batchesRated := 0, acceptedJokes := 0 }

/-- A ratings list for batch 1 of `baseDB`: joke 1 rated 5, joke 2 rated 3. -/
def exC3inputs : List RatingInput :=
  [⟨1, 5, .madeMeSmile⟩, ⟨2, 3, .didntLand⟩]

/-- C9 example state: three team rows with points 30, 30, 20. -/
def exC9 : DB :=
  { baseDB with teamStates :=
      [{ roundId := 1, teamId := 1, pointsEarned := 30, batchesCreated := 0,
         batchesRated := 0, acceptedJokes := 0 },
       { roundId := 1, teamId := 2, pointsEarned := 30, batchesCreated := 0,
         batchesRated := 0, acceptedJokes := 0 },
       { roundId := 1, teamId := 3, pointsEarned := 20, batchesCreated := 0,
         batchesRated := 0, acceptedJokes := 0 }] }

/-- The relation between consecutive leaderboard rows that "dense rank"
demands: points never increase, tied points share the rank, and a strictly
smaller points value gets exactly the previous rank plus one. -/
def denseStep (a b : LBEntry) : Prop :=
  b.points ≤ a.points ∧ (b.points = a.points → b.rank = a.rank) ∧
    (b.points < a.points → b.rank = a.rank + 1)

/-! ## General lemmas about the SQL primitives -/

theorem updateWhere_cons {α} (p : α → Bool) (f : α → α) (a : α) (l : List α) :
    updateWhere p f (a :: l) = (if p a = true then f a else a) :: updateWhere p f l :=
  rfl

theorem find?_updateWhere_self {α} (p : α → Bool) (f : α → α) (l : List α)
    (hp : ∀ x, p x = true → p (f x) = true) :
    (updateWhere p f l).find? p = (l.find? p).map f := by
  induction l with
  | nil => rfl
  | cons a l ih =>
    rw [updateWhere_cons]
    by_cases h : p a = true
    · rw [if_pos h, List.find?_cons_of_pos _ (hp a h),
        List.find?_cons_of_pos _ h, Option.map_some']
    · rw [if_neg h, List.find?_cons_of_neg _ h, List.find?_cons_of_neg _ h]
      exact ih

theorem find?_updateWhere_other {α} (p q : α → Bool) (f : α → α) (l : List α)
    (h1 : ∀ x, p x = true → q x = false)
    (h2 : ∀ x, p x = true → q (f x) = false) :
    (updateWhere p f l).find? q = l.find? q := by
  induction l with
  | nil => rfl
  | cons a l ih =>
    rw [updateWhere_cons]
    by_cases hpa : p a = true
    · rw [if_pos hpa, List.find?_cons_of_neg _ (by rw [h2 a hpa]; exact Bool.false_ne_true),
        List.find?_cons_of_neg _ (by rw [h1 a hpa]; exact Bool.false_ne_true)]
      exact ih
    · rw [if_neg hpa]
      by_cases hqa : q a = true
      · rw [List.find?_cons_of_pos _ hqa, List.find?_cons_of_pos _ hqa]
      · rw [List.find?_cons_of_neg _ hqa, List.find?_cons_of_neg _ hqa]
        exact ih

theorem length_filter_updateWhere {α} (p q : α → Bool) (f : α → α) (l : List α)
    (h : ∀ x, q (f x) = q x) :
    ((updateWhere p f l).filter q).length = (l.filter q).length := by
  induction l with
  | nil => rfl
  | cons a l ih =>
    rw [updateWhere_cons]
    by_cases hpa : p a = true
    · rw [if_pos hpa]
      by_cases hqa : q a = true
      · rw [List.filter_cons_of_pos ((h a).trans hqa), List.filter_cons_of_pos hqa,
          List.length_cons, List.length_cons, ih]
      · rw [List.filter_cons_of_neg (by rw [h a]; exact hqa),
          List.filter_cons_of_neg hqa, ih]
    · rw [if_neg hpa]
      by_cases hqa : q a = true
      · rw [List.filter_cons_of_pos hqa, List.filter_cons_of_pos hqa,
          List.length_cons, List.length_cons, ih]
      · rw [List.filter_cons_of_neg hqa, List.filter_cons_of_neg hqa, ih]

/-! ## C8: StartRound -/

/-- C8: for every existing round, `startRound` returns and stores a round
whose status is ACTIVE, whose `customer_budget` and `batch_size` are the
supplied configuration, whose `ended_at` is cleared to null, and whose
`started_at` is set to now only when it was not already set — a round that
already has `started_at` keeps it.  All of it is one row update: the single
stored row carries every one of these fields at once. -/
theorem startRound_spec (db : DB) (roundId : Nat) (customerBudget : Int)
    (batchSize now : Nat) (rd : Round)
    (h : db.findRound roundId = some rd) :
    ∃ rd2, (startRound db roundId customerBudget batchSize now).1 = .ok rd2 ∧
      ((startRound db roundId customerBudget batchSize now).2).findRound roundId = some rd2 ∧
      rd2.status = .active ∧ rd2.customerBudget = customerBudget ∧
      rd2.batchSize = batchSize ∧ rd2.endedAt = none ∧
      rd2.startedAt = some (rd.startedAt.getD now) ∧
      (∀ t0, rd.startedAt = some t0 → rd2.startedAt = some t0) := by
  refine ⟨{ rd with status := .active, customerBudget := customerBudget, batchSize := batchSize, startedAt := some (rd.startedAt.getD now), endedAt := none }, ?_, ?_, rfl, rfl, rfl, rfl, rfl, ?_⟩
  · simp [startRound, h]
  · simp only [startRound, h]
    show (updateWhere _ _ db.rounds).find? _ = _
    rw [find?_updateWhere_self]
    · simp only [DB.findRound] at h
      rw [h]
      rfl
    · exact fun x h2 => h2
  · intro t0 ht
    simp [ht]

/-- Witness for C8 at a concrete input: round 1 of `baseDB` exists with
`started_at` already set to 10; starting it with budget 7 and batch size 4
yields an ACTIVE round with that configuration, `ended_at` null and the
original `started_at`. -/
theorem startRound_spec_witness :
    baseDB.findRound 1 = some ⟨1, .active, 5, 2, some 10, none⟩ ∧
    (∃ rd2, (startRound baseDB 1 7 4 99).1 = .ok rd2 ∧
      ((startRound baseDB 1 7 4 99).2).findRound 1 = some rd2 ∧
      rd2.status = .active ∧ rd2.customerBudget = 7 ∧
      rd2.batchSize = 4 ∧ rd2.endedAt = none ∧
      rd2.startedAt = some ((some 10 : Option Nat).getD 99) ∧
      (∀ t0, (some 10 : Option Nat) = some t0 → rd2.startedAt = some t0)) :=
  ⟨by decide, startRound_spec baseDB 1 7 4 99 ⟨1, .active, 5, 2, some 10, none⟩ (by decide)⟩

/-! ## C1 and C2: the counter updates escape the transaction

`RateBatch`, `BuyJoke` and `ReturnJoke` call `r.IncrementRatedStats`, which
executes its UPDATE on `r.pool` (auto-commit) while the surrounding
transaction is still open.  When the final `tx.Commit` fails, every
transaction-scoped write rolls back but the already-committed counter update
survives — exactly the split the spec rules out. -/

/-- C1 (code bug): on `baseDB`, rating batch 1 (SUBMITTED, unlocked) with
ratings [5, 3] under a failing commit returns an error and leaves the batch
un-rated, the rating rows and published jokes untouched — yet the team's
`batches_rated` and `accepted_jokes` counters are already incremented,
contradicting "if any step fails, none of these changes (including the
counter increments) persist". -/
theorem rateBatch_counter_outside_transaction :
    (rateBatch baseDB 1 9 [⟨1, 5, .madeMeSmile⟩, ⟨2, 3, .didntLand⟩] none 30 .failCommit).1 = .error ⟨.internal, "commit failed"⟩ ∧
    ((rateBatch baseDB 1 9 [⟨1, 5, .madeMeSmile⟩, ⟨2, 3, .didntLand⟩] none 30 .failCommit).2).batches = baseDB.batches ∧
    ((rateBatch baseDB 1 9 [⟨1, 5, .madeMeSmile⟩, ⟨2, 3, .didntLand⟩] none 30 .failCommit).2).ratings = [] ∧
    ((rateBatch baseDB 1 9 [⟨1, 5, .madeMeSmile⟩, ⟨2, 3, .didntLand⟩] none 30 .failCommit).2).published = baseDB.published ∧
    ((rateBatch baseDB 1 9 [⟨1, 5, .madeMeSmile⟩, ⟨2, 3, .didntLand⟩] none 30 .failCommit).2).teamStates =
      [{ roundId := 1, teamId := 3, pointsEarned := 0, batchesCreated := 0, batchesRated := 1, acceptedJokes := 1 }] := by
  decide

/-- C2 (code bug): on `baseDB`, buying published joke 9 under a failing
commit returns an error and leaves the customer's budget and the purchases
table untouched — yet the owning team's `points_earned` (and `batches_rated`)
are already incremented, contradicting "there is no failure outcome in which
... the owning team's points_earned changed" without the budget change. -/
theorem buyJoke_points_outside_transaction :
    ((buyJoke baseDB 1 5 9 .failCommit).1 = .error ⟨.internal, "commit failed"⟩ ∧
     ((buyJoke baseDB 1 5 9 .failCommit).2).budgets = baseDB.budgets ∧
     ((buyJoke baseDB 1 5 9 .failCommit).2).purchases = [] ∧
     ((buyJoke baseDB 1 5 9 .failCommit).2).teamStates =
       [{ roundId := 1, teamId := 3, pointsEarned := 1, batchesCreated := 0, batchesRated := 1, acceptedJokes := 0 }]) ∧
    ((returnJoke (buyJoke baseDB 1 5 9 .ok).2 1 5 9 .failCommit).1 = .error ⟨.internal, "commit failed"⟩ ∧
     ((returnJoke (buyJoke baseDB 1 5 9 .ok).2 1 5 9 .failCommit).2).budgets =
       [{ roundId := 1, customerUserId := 5, startingBudget := 5, remainingBudget := 4 }] ∧
     ((returnJoke (buyJoke baseDB 1 5 9 .ok).2 1 5 9 .failCommit).2).purchases =
       [{ id := 1, roundId := 1, customerUserId := 5, jokeId := 9 }] ∧
     ((returnJoke (buyJoke baseDB 1 5 9 .ok).2 1 5 9 .failCommit).2).teamStates =
       [{ roundId := 1, teamId := 3, pointsEarned := 0, batchesCreated := 0, batchesRated := 2, acceptedJokes := 0 }]) := by
  decide

/-! ## Market lemmas shared by C4, C5 and C10 -/

theorem findTeamState_incrementRatedStats_self (db : DB) (r t : Nat) (pc pd : Int) :
    (incrementRatedStats db r t pc pd).findTeamState r t =
      (db.findTeamState r t).map fun ts =>
        { ts with batchesRated := ts.batchesRated + 1,
                  acceptedJokes := ts.acceptedJokes + pc,
                  pointsEarned := ts.pointsEarned + pd } := by
  simp only [incrementRatedStats, DB.findTeamState]
  exact find?_updateWhere_self _ _ _ fun x h => h

theorem findBudget_adjustBudget_self (db : DB) (r c : Nat) (d : Int) :
    (adjustBudget db r c d).findBudget r c =
      (db.findBudget r c).map fun b =>
        { b with remainingBudget := b.remainingBudget + d } := by
  simp only [adjustBudget, DB.findBudget]
  exact find?_updateWhere_self _ _ _ fun x h => h

/-- Unfolding of the success path of `buyJoke`: with an established budget
that is strictly positive, no prior purchase of the triple and a published
joke row, the call inserts the purchase, decrements the budget inside the
transaction, and bumps the team counters via the pool statement. -/
theorem buyJoke_ok_eq (db : DB) (r c j : Nat) (bg : BudgetRow) (pj : PublishedRow)
    (hbg : db.findBudget r c = some bg)
    (hpos : 0 < bg.remainingBudget)
    (hnp : (db.purchases.any fun p => p.roundId = r ∧ p.customerUserId = c ∧ p.jokeId = j) = false)
    (hpj : db.findPublished j = some pj) :
    buyJoke db r c j .ok =
      (.ok ({ id := db.nextPurchaseId, roundId := r, customerUserId := c, jokeId := j },
            { bg with remainingBudget := bg.remainingBudget - 1 }, pj.teamId),
       incrementRatedStats (adjustBudget { db with purchases := db.purchases ++ [{ id := db.nextPurchaseId, roundId := r, customerUserId := c, jokeId := j }], nextPurchaseId := db.nextPurchaseId + 1 } r c (-1)) r pj.teamId 0 1) := by
  simp only [buyJoke, hbg, hpj]
  rw [if_neg (not_le.mpr hpos), hnp]
  simp

/-- Unfolding of the success path of `returnJoke`: with an existing purchase
row and a published joke row, the call deletes the purchase, restores one
budget unit inside the transaction, and decrements the team's points via the
pool statement. -/
theorem returnJoke_ok_eq (db : DB) (r c j : Nat) (p : PurchaseRow) (pj : PublishedRow)
    (hp : db.findPurchase r c j = some p)
    (hpj : db.findPublished j = some pj) :
    returnJoke db r c j .ok =
      (.ok (p, (adjustBudget { db with purchases := db.purchases.filter fun q => q.id ≠ p.id } r c 1).findBudget r c, pj.teamId),
       incrementRatedStats (adjustBudget { db with purchases := db.purchases.filter fun q => q.id ≠ p.id } r c 1) r pj.teamId 0 (-1)) := by
  rw [returnJoke, hp, hpj]

theorem find?_eq_none_of_any_eq_false {α} (p : α → Bool) (l : List α)
    (h : l.any p = false) : l.find? p = none := by
  rw [List.find?_eq_none]
  rw [List.any_eq_false] at h
  exact h

section AfterBuy

variable (db : DB) (r c j : Nat) (bg : BudgetRow) (pj : PublishedRow)

theorem findTeamState_after_buy
    (hbg : db.findBudget r c = some bg)
    (hpos : 0 < bg.remainingBudget)
    (hnp : (db.purchases.any fun p => p.roundId = r ∧ p.customerUserId = c ∧ p.jokeId = j) = false)
    (hpj : db.findPublished j = some pj) :
    ((buyJoke db r c j .ok).2).findTeamState r pj.teamId =
      (db.findTeamState r pj.teamId).map fun ts =>
        { ts with batchesRated := ts.batchesRated + 1,
                  acceptedJokes := ts.acceptedJokes + 0,
                  pointsEarned := ts.pointsEarned + 1 } := by
  rw [buyJoke_ok_eq db r c j bg pj hbg hpos hnp hpj]
  exact findTeamState_incrementRatedStats_self _ _ _ _ _

theorem findBudget_after_buy
    (hbg : db.findBudget r c = some bg)
    (hpos : 0 < bg.remainingBudget)
    (hnp : (db.purchases.any fun p => p.roundId = r ∧ p.customerUserId = c ∧ p.jokeId = j) = false)
    (hpj : db.findPublished j = some pj) :
    ((buyJoke db r c j .ok).2).findBudget r c =
      (db.findBudget r c).map fun b =>
        { b with remainingBudget := b.remainingBudget + (-1) } := by
  rw [buyJoke_ok_eq db r c j bg pj hbg hpos hnp hpj]
  exact findBudget_adjustBudget_self _ _ _ _

theorem findPurchase_after_buy
    (hbg : db.findBudget r c = some bg)
    (hpos : 0 < bg.remainingBudget)
    (hnp : (db.purchases.any fun p => p.roundId = r ∧ p.customerUserId = c ∧ p.jokeId = j) = false)
    (hpj : db.findPublished j = some pj) :
    ((buyJoke db r c j .ok).2).findPurchase r c j =
      some { id := db.nextPurchaseId, roundId := r, customerUserId := c, jokeId := j } := by
  rw [buyJoke_ok_eq db r c j bg pj hbg hpos hnp hpj]
  show (db.purchases ++ [_]).find? _ = _
  rw [List.find?_append, find?_eq_none_of_any_eq_false _ _ hnp]
  simp

theorem findPublished_after_buy
    (hbg : db.findBudget r c = some bg)
    (hpos : 0 < bg.remainingBudget)
    (hnp : (db.purchases.any fun p => p.roundId = r ∧ p.customerUserId = c ∧ p.jokeId = j) = false)
    (hpj : db.findPublished j = some pj) :
    ((buyJoke db r c j .ok).2).findPublished j = some pj := by
  rw [buyJoke_ok_eq db r c j bg pj hbg hpos hnp hpj]
  exact hpj

theorem purchases_after_buy
    (hbg : db.findBudget r c = some bg)
    (hpos : 0 < bg.remainingBudget)
    (hnp : (db.purchases.any fun p => p.roundId = r ∧ p.customerUserId = c ∧ p.jokeId = j) = false)
    (hpj : db.findPublished j = some pj) :
    ((buyJoke db r c j .ok).2).purchases =
      db.purchases ++ [{ id := db.nextPurchaseId, roundId := r, customerUserId := c, jokeId := j }] := by
  rw [buyJoke_ok_eq db r c j bg pj hbg hpos hnp hpj]
  rfl

end AfterBuy

theorem findTeamState_adjustBudget (db : DB) (r c : Nat) (d : Int) (r2 t2 : Nat) :
    (adjustBudget db r c d).findTeamState r2 t2 = db.findTeamState r2 t2 :=
  rfl

theorem findTeamState_set_purchases (db : DB) (ps : List PurchaseRow) (r t : Nat) :
    DB.findTeamState { db with purchases := ps } r t = db.findTeamState r t :=
  rfl

theorem findBudget_incrementRatedStats (db : DB) (r t : Nat) (pc pd : Int) (r2 c2 : Nat) :
    (incrementRatedStats db r t pc pd).findBudget r2 c2 = db.findBudget r2 c2 :=
  rfl

theorem findBudget_set_purchases (db : DB) (ps : List PurchaseRow) (r c : Nat) :
    DB.findBudget { db with purchases := ps } r c = db.findBudget r c :=
  rfl

/-! ## C10: Buy and Return bump batches_rated -/

/-- C10: a successful buy increments the owning team's `batches_rated` by one
(because `IncrementRatedStats` unconditionally adds 1 to it), and the
following successful return of the same joke increments it again, leaving
`batches_rated` two higher than before the pair — market activity moves the
`batches_rated` statistic even though no batch was rated. -/
theorem market_increments_batches_rated (db : DB) (r c j : Nat)
    (bg : BudgetRow) (pj : PublishedRow) (ts : TeamStateRow)
    (hbg : db.findBudget r c = some bg)
    (hpos : 0 < bg.remainingBudget)
    (hnp : (db.purchases.any fun p => p.roundId = r ∧ p.customerUserId = c ∧ p.jokeId = j) = false)
    (hpj : db.findPublished j = some pj)
    (hts : db.findTeamState r pj.teamId = some ts) :
    (∃ v, (buyJoke db r c j .ok).1 = Except.ok v) ∧
    (((buyJoke db r c j .ok).2).findTeamState r pj.teamId).map TeamStateRow.batchesRated = some (ts.batchesRated + 1) ∧
    (∃ w, (returnJoke (buyJoke db r c j .ok).2 r c j .ok).1 = Except.ok w) ∧
    (((returnJoke (buyJoke db r c j .ok).2 r c j .ok).2).findTeamState r pj.teamId).map TeamStateRow.batchesRated = some (ts.batchesRated + 2) := by
  have hp2 := findPurchase_after_buy db r c j bg pj hbg hpos hnp hpj
  have hpj2 := findPublished_after_buy db r c j bg pj hbg hpos hnp hpj
  have hts2 := findTeamState_after_buy db r c j bg pj hbg hpos hnp hpj
  have hret := returnJoke_ok_eq _ r c j _ pj hp2 hpj2
  refine ⟨?_, ?_, ?_, ?_⟩
  · rw [buyJoke_ok_eq db r c j bg pj hbg hpos hnp hpj]
    exact ⟨_, rfl⟩
  · rw [hts2, hts]
    rfl
  · rw [hret]
    exact ⟨_, rfl⟩
  · rw [hret, findTeamState_incrementRatedStats_self, findTeamState_adjustBudget,
      findTeamState_set_purchases, hts2, hts]
    simp
    omega

/-- Witness for C10 at a concrete input: in `baseDB` (budget 5, published
joke 9 owned by team 3, zeroed counters) a buy bumps `batches_rated` to 1 and
the following return bumps it to 2. -/
theorem market_increments_batches_rated_witness :
    baseDB.findBudget 1 5 = some ⟨1, 5, 5, 5⟩ ∧
    (0 : Int) < 5 ∧
    (baseDB.purchases.any fun p => p.roundId = 1 ∧ p.customerUserId = 5 ∧ p.jokeId = 9) = false ∧
    baseDB.findPublished 9 = some ⟨9, 1, 3⟩ ∧
    baseDB.findTeamState 1 3 = some ⟨1, 3, 0, 0, 0, 0⟩ ∧
    ((∃ v, (buyJoke baseDB 1 5 9 .ok).1 = Except.ok v) ∧
     (((buyJoke baseDB 1 5 9 .ok).2).findTeamState 1 3).map TeamStateRow.batchesRated = some 1 ∧
     (∃ w, (returnJoke (buyJoke baseDB 1 5 9 .ok).2 1 5 9 .ok).1 = Except.ok w) ∧
     (((returnJoke (buyJoke baseDB 1 5 9 .ok).2 1 5 9 .ok).2).findTeamState 1 3).map TeamStateRow.batchesRated = some 2) :=
  ⟨by decide, by decide, by decide, by decide, by decide,
   market_increments_batches_rated baseDB 1 5 9 ⟨1, 5, 5, 5⟩ ⟨9, 1, 3⟩ ⟨1, 3, 0, 0, 0, 0⟩ (by decide) (by decide) (by decide) (by decide) (by decide)⟩

/-! ## C3: RateBatch scoring, publication and counters -/

theorem find?_key_of_nodup {α} (key : α → Nat) {l : List α}
    (h : (l.map key).Nodup) {b : α} (hb : b ∈ l) :
    l.find? (fun x => key x = key b) = some b := by
  induction l with
  | nil => cases hb
  | cons a l ih =>
    rw [List.map_cons, List.nodup_cons] at h
    rcases List.mem_cons.mp hb with rfl | hbl
    · rw [List.find?_cons_of_pos]
      simp
    · have hne : key a ≠ key b := fun he => h.1 (he ▸ List.mem_map_of_mem key hbl)
      rw [List.find?_cons_of_neg _ (by simp [hne])]
      exact ih h.2 hbl


theorem ratingOf_upsertRating (rs : List RatingRow) (row : RatingRow) (j : Nat) :
    ratingOf (upsertRating rs row) j =
      if j = row.jokeId then some row.rating else ratingOf rs j := by
  unfold upsertRating
  by_cases hex : (rs.any fun r => r.jokeId = row.jokeId) = true
  · rw [if_pos hex]
    by_cases hj : j = row.jokeId
    · subst hj
      rw [if_pos rfl]
      unfold ratingOf
      rw [find?_updateWhere_self _ _ _ fun x h => by simp]
      rcases List.any_eq_true.mp hex with ⟨x, hxmem, hx⟩
      have hsome : (rs.find? fun r => decide (r.jokeId = row.jokeId)).isSome := by
        rw [List.find?_isSome]
        exact ⟨x, hxmem, hx⟩
      rcases Option.isSome_iff_exists.mp hsome with ⟨y, hy⟩
      rw [hy]
      rfl
    · rw [if_neg hj]
      have hrj : ¬(row.jokeId = j) := fun he => hj he.symm
      unfold ratingOf
      rw [find?_updateWhere_other]
      · intro x hx
        simp only [decide_eq_true_eq] at hx
        simp [hx, hrj]
      · intro x _
        simp [hrj]
  · rw [if_neg hex]
    unfold ratingOf
    rw [List.find?_append]
    by_cases hj : j = row.jokeId
    · rw [if_pos hj]
      subst hj
      rw [find?_eq_none_of_any_eq_false _ _ (Bool.eq_false_iff.mpr hex)]
      simp [List.find?_cons]
    · rw [if_neg hj]
      have hrj : ¬(row.jokeId = j) := fun he => hj he.symm
      have hrow : ([row].find? fun r => r.jokeId = j) = none := by
        simp [List.find?_cons, hrj]
      rw [hrow, Option.or_none]

theorem ratingOf_upsertRatings (rs : List RatingRow) (qcUserId : Nat)
    (inputs : List RatingInput)
    (hnodup : (inputs.map RatingInput.jokeId).Nodup) (j : Nat) :
    ratingOf (upsertRatings rs qcUserId inputs) j =
      match inputs.find? fun i => i.jokeId = j with
      | some i => some i.rating
      | none => ratingOf rs j := by
  induction inputs generalizing rs with
  | nil => rfl
  | cons i is ih =>
    rw [List.map_cons, List.nodup_cons] at hnodup
    have hstep : upsertRatings rs qcUserId (i :: is) =
        upsertRatings (upsertRating rs ⟨i.jokeId, qcUserId, i.rating, i.tag⟩) qcUserId is := rfl
    rw [hstep, ih _ hnodup.2]
    by_cases hj : i.jokeId = j
    · subst hj
      have hnone : (is.find? fun x => x.jokeId = i.jokeId) = none := by
        rw [List.find?_eq_none]
        intro x hx hxx
        simp only [decide_eq_true_eq] at hxx
        exact hnodup.1 (hxx ▸ List.mem_map_of_mem RatingInput.jokeId hx)
      rw [hnone, List.find?_cons_of_pos _ (by simp)]
      dsimp only
      rw [ratingOf_upsertRating]
      rw [if_pos rfl]
    · rw [List.find?_cons_of_neg _ (by simp [hj])]
      cases hfind : is.find? fun x => x.jokeId = j with
      | some i2 => rfl
      | none =>
        dsimp only
        rw [ratingOf_upsertRating]
        rw [if_neg fun he => hj he.symm]

theorem filter_map_pair {js : List Joke} {is : List RatingInput}
    (P : Joke → Bool) (Q : RatingInput → Bool)
    (hmap : js.map Joke.id = is.map RatingInput.jokeId)
    (hPQ : ∀ j ∈ js, ∀ i ∈ is, j.id = i.jokeId → P j = Q i) :
    (js.filter P).map Joke.id = (is.filter Q).map RatingInput.jokeId := by
  induction js generalizing is with
  | nil =>
    cases is with
    | nil => rfl
    | cons i is2 => exact absurd hmap (by simp)
  | cons j js2 ih =>
    cases is with
    | nil => exact absurd hmap (by simp)
    | cons i is2 =>
      rw [List.map_cons, List.map_cons] at hmap
      have hhead : j.id = i.jokeId := (List.cons.injEq _ _ _ _ ▸ hmap).1
      have htail : js2.map Joke.id = is2.map RatingInput.jokeId :=
        (List.cons.injEq _ _ _ _ ▸ hmap).2
      have hq : P j = Q i :=
        hPQ j (List.mem_cons_self j js2) i (List.mem_cons_self i is2) hhead
      have hrec := ih htail fun x hx y hy hxy =>
        hPQ x (List.mem_cons_of_mem j hx) y (List.mem_cons_of_mem i hy) hxy
      by_cases hQ : Q i = true
      · rw [List.filter_cons_of_pos (hq.trans hQ), List.filter_cons_of_pos hQ,
          List.map_cons, List.map_cons, hhead, hrec]
      · rw [List.filter_cons_of_neg (by rw [hq]; exact hQ),
          List.filter_cons_of_neg hQ, hrec]

theorem filter_filter_of_imp {α} (p q : α → Bool) (l : List α)
    (h : ∀ x, p x = true → q x = true) :
    (l.filter q).filter p = l.filter p := by
  induction l with
  | nil => rfl
  | cons a l ih =>
    by_cases hq : q a = true
    · rw [List.filter_cons_of_pos hq]
      by_cases hp : p a = true
      · rw [List.filter_cons_of_pos hp, List.filter_cons_of_pos hp, ih]
      · rw [List.filter_cons_of_neg hp, List.filter_cons_of_neg hp, ih]
    · have hp : ¬(p a = true) := fun hpa => hq (h a hpa)
      rw [List.filter_cons_of_neg hq, List.filter_cons_of_neg hp, ih]

/-- The publish step of `RateBatch` publishes exactly the joke ids rated 5,
in batch-joke order, when the ratings cover exactly the batch's jokes and
none of them is already published. -/
theorem publishCandidates_eq (db : DB) (batchId qcUserId : Nat) (inputs : List RatingInput)
    (hids : (db.jokesOfBatch batchId).map Joke.id = inputs.map RatingInput.jokeId)
    (hnodup : (inputs.map RatingInput.jokeId).Nodup)
    (hpub : ∀ j ∈ db.jokesOfBatch batchId, (db.published.any fun p => p.jokeId = j.id) = false) :
    publishCandidates db.jokes db.published (upsertRatings db.ratings qcUserId inputs) batchId =
      (inputs.filter fun i => i.rating = 5).map RatingInput.jokeId := by
  simp only [publishCandidates]
  have h1 : (db.jokes.filter fun j =>
        j.batchId = batchId ∧
          ratingOf (upsertRatings db.ratings qcUserId inputs) j.id = some 5 ∧
            ¬ db.published.any fun p => p.jokeId = j.id) =
      ((db.jokes.filter fun j => j.batchId = batchId).filter fun j =>
        j.batchId = batchId ∧
          ratingOf (upsertRatings db.ratings qcUserId inputs) j.id = some 5 ∧
            ¬ db.published.any fun p => p.jokeId = j.id) := by
    rw [filter_filter_of_imp]
    intro x hx
    simp only [decide_eq_true_eq] at hx
    simp [hx.1]
  rw [h1]
  have h2 : ((db.jokes.filter fun j => j.batchId = batchId).filter fun j =>
        j.batchId = batchId ∧
          ratingOf (upsertRatings db.ratings qcUserId inputs) j.id = some 5 ∧
            ¬ db.published.any fun p => p.jokeId = j.id) =
      ((db.jokes.filter fun j => j.batchId = batchId).filter fun j =>
        ratingOf (upsertRatings db.ratings qcUserId inputs) j.id = some 5) := by
    refine List.filter_congr fun x hx => ?_
    have hA : x.batchId = batchId := by
      have := (List.mem_filter.mp hx).2
      simpa using this
    have hC := hpub x hx
    simp [hA, hC]
  rw [h2]
  refine filter_map_pair _ _ hids ?_
  intro j hj i hi hji
  have hfind : inputs.find? (fun x => x.jokeId = i.jokeId) = some i :=
    find?_key_of_nodup RatingInput.jokeId hnodup hi
  have hrat : ratingOf (upsertRatings db.ratings qcUserId inputs) j.id = some i.rating := by
    rw [ratingOf_upsertRatings db.ratings qcUserId inputs hnodup, hji, hfind]
  rw [hrat]
  simp

/-- Unfolding of the success path of `rateBatch` on a ratable batch. -/
theorem rateBatch_ok_eq (db : DB) (batchId qcUserId now : Nat)
    (inputs : List RatingInput) (feedback : Option String) (b : Batch)
    (hb : db.findBatch batchId = some b)
    (hs : ¬(b.status = .rated))
    (hl : b.lockedByQc = none ∨ b.lockedByQc = some qcUserId) :
    rateBatch db batchId qcUserId inputs feedback now .ok =
      (Except.ok
        ({ b with status := BatchStatus.rated, ratedAt := some now,
                  avgScore := some ((((inputs.map fun i => i.rating).sum : Nat) : Rat) / (inputs.length : Rat)),
                  passesCount := some ((inputs.filter fun i => i.rating = 5).length),
                  feedback := feedback, lockedAt := none, lockedByQc := none },
         publishCandidates db.jokes db.published (upsertRatings db.ratings qcUserId inputs) batchId),
       incrementRatedStats
         { db with ratings := upsertRatings db.ratings qcUserId inputs,
                   batches := updateWhere (fun x => x.id = batchId)
                     (fun x => { x with status := BatchStatus.rated, ratedAt := some now,
                                        avgScore := some ((((inputs.map fun i => i.rating).sum : Nat) : Rat) / (inputs.length : Rat)),
                                        passesCount := some ((inputs.filter fun i => i.rating = 5).length),
                                        feedback := feedback, lockedAt := none, lockedByQc := none })
                     db.batches,
                   published := db.published ++
                     (publishCandidates db.jokes db.published (upsertRatings db.ratings qcUserId inputs) batchId).map
                       fun j => { jokeId := j, roundId := b.roundId, teamId := b.teamId } }
         b.roundId b.teamId (((inputs.filter fun i => i.rating = 5).length : Nat) : Int) 0) := by
  have hlock : ¬(b.lockedByQc.getD qcUserId ≠ qcUserId) := by
    rcases hl with h | h <;> simp [h]
  simp only [rateBatch, hb]
  rw [if_neg hs, if_neg hlock]

theorem findBatch_incrementRatedStats (db : DB) (r t : Nat) (pc pd : Int) (id : Nat) :
    (incrementRatedStats db r t pc pd).findBatch id = db.findBatch id :=
  rfl

theorem published_incrementRatedStats (db : DB) (r t : Nat) (pc pd : Int) :
    (incrementRatedStats db r t pc pd).published = db.published :=
  rfl

/-- C3: rating a ratable batch (SUBMITTED, not locked by another QC) with a
non-empty ratings list that covers exactly the batch's jokes (none published
yet) stores the batch RATED with `passes_count` equal to the number of
ratings exactly equal to 5, `avg_score` equal to the arithmetic mean of the
integer ratings, publishes exactly the jokes rated 5 (in particular all N
when all N ratings are 5, and none when no rating is 5) under the batch's
round and team, and increments the team's `accepted_jokes` by `passes_count`
(and `batches_rated` by one) while leaving `points_earned` unchanged. -/
theorem rateBatch_spec (db : DB) (batchId qcUserId now : Nat)
    (inputs : List RatingInput) (feedback : Option String)
    (b : Batch) (ts : TeamStateRow)
    (hb : db.findBatch batchId = some b)
    (hs : ¬(b.status = .rated))
    (hl : b.lockedByQc = none ∨ b.lockedByQc = some qcUserId)
    (_hne : inputs ≠ [])
    (hids : (db.jokesOfBatch batchId).map Joke.id = inputs.map RatingInput.jokeId)
    (hnodup : (inputs.map RatingInput.jokeId).Nodup)
    (hpub : ∀ j ∈ db.jokesOfBatch batchId, (db.published.any fun p => p.jokeId = j.id) = false)
    (hts : db.findTeamState b.roundId b.teamId = some ts) :
    (rateBatch db batchId qcUserId inputs feedback now .ok).1 =
      Except.ok
        ({ b with status := BatchStatus.rated, ratedAt := some now,
                  avgScore := some ((((inputs.map fun i => i.rating).sum : Nat) : Rat) / (inputs.length : Rat)),
                  passesCount := some ((inputs.filter fun i => i.rating = 5).length),
                  feedback := feedback, lockedAt := none, lockedByQc := none },
         (inputs.filter fun i => i.rating = 5).map RatingInput.jokeId) ∧
    ((rateBatch db batchId qcUserId inputs feedback now .ok).2).findBatch batchId =
      some { b with status := BatchStatus.rated, ratedAt := some now,
                    avgScore := some ((((inputs.map fun i => i.rating).sum : Nat) : Rat) / (inputs.length : Rat)),
                    passesCount := some ((inputs.filter fun i => i.rating = 5).length),
                    feedback := feedback, lockedAt := none, lockedByQc := none } ∧
    ((rateBatch db batchId qcUserId inputs feedback now .ok).2).published =
      db.published ++ ((inputs.filter fun i => i.rating = 5).map fun i =>
        ({ jokeId := i.jokeId, roundId := b.roundId, teamId := b.teamId } : PublishedRow)) ∧
    ((rateBatch db batchId qcUserId inputs feedback now .ok).2).findTeamState b.roundId b.teamId =
      some { ts with batchesRated := ts.batchesRated + 1,
                     acceptedJokes := ts.acceptedJokes + (((inputs.filter fun i => i.rating = 5).length : Nat) : Int) } := by
  have hok := rateBatch_ok_eq db batchId qcUserId now inputs feedback b hb hs hl
  have hpubeq := publishCandidates_eq db batchId qcUserId inputs hids hnodup hpub
  refine ⟨?_, ?_, ?_, ?_⟩
  · rw [hok]
    show Except.ok _ = Except.ok _
    rw [hpubeq]
  · rw [hok, findBatch_incrementRatedStats]
    simp only [DB.findBatch]
    rw [find?_updateWhere_self]
    · simp only [DB.findBatch] at hb
      rw [hb]
      rfl
    · exact fun x h => h
  · rw [hok, published_incrementRatedStats]
    show db.published ++ _ = db.published ++ _
    rw [hpubeq, List.map_map]
    rfl
  · rw [hok, findTeamState_incrementRatedStats_self]
    simp only [DB.findTeamState] at hts ⊢
    rw [hts]
    simp

/-- Witness for C3 at a concrete input: QC 9 rates batch 1 of `baseDB`
(jokes 1 and 2) with [5, 3]: avg 4, one pass, joke 1 published, team 3's
`accepted_jokes` goes to 1. -/
theorem rateBatch_spec_witness :
    baseDB.findBatch 1 = some exC3batch ∧
    ¬(exC3batch.status = .rated) ∧
    (exC3batch.lockedByQc = none ∨ exC3batch.lockedByQc = some 9) ∧
    exC3inputs ≠ [] ∧
    (baseDB.jokesOfBatch 1).map Joke.id = exC3inputs.map RatingInput.jokeId ∧
    (exC3inputs.map RatingInput.jokeId).Nodup ∧
    (∀ j ∈ baseDB.jokesOfBatch 1, (baseDB.published.any fun p => p.jokeId = j.id) = false) ∧
    baseDB.findTeamState exC3batch.roundId exC3batch.teamId = some exC3ts ∧
    ((rateBatch baseDB 1 9 exC3inputs none 30 .ok).1 =
      Except.ok
        ({ exC3batch with status := BatchStatus.rated, ratedAt := some 30, avgScore := some ((((exC3inputs.map fun i => i.rating).sum : Nat) : Rat) / (exC3inputs.length : Rat)), passesCount := some ((exC3inputs.filter fun i => i.rating = 5).length), feedback := none, lockedAt := none, lockedByQc := none },
         (exC3inputs.filter fun i => i.rating = 5).map RatingInput.jokeId) ∧
     ((rateBatch baseDB 1 9 exC3inputs none 30 .ok).2).findBatch 1 =
      some { exC3batch with status := BatchStatus.rated, ratedAt := some 30, avgScore := some ((((exC3inputs.map fun i => i.rating).sum : Nat) : Rat) / (exC3inputs.length : Rat)), passesCount := some ((exC3inputs.filter fun i => i.rating = 5).length), feedback := none, lockedAt := none, lockedByQc := none } ∧
     ((rateBatch baseDB 1 9 exC3inputs none 30 .ok).2).published =
      baseDB.published ++ ((exC3inputs.filter fun i => i.rating = 5).map fun i =>
        ({ jokeId := i.jokeId, roundId := exC3batch.roundId, teamId := exC3batch.teamId } : PublishedRow)) ∧
     ((rateBatch baseDB 1 9 exC3inputs none 30 .ok).2).findTeamState exC3batch.roundId exC3batch.teamId =
      some { exC3ts with batchesRated := exC3ts.batchesRated + 1, acceptedJokes := exC3ts.acceptedJokes + (((exC3inputs.filter fun i => i.rating = 5).length : Nat) : Int) }) :=
  ⟨by decide, by decide, by decide, by decide, by decide, by decide, by decide, by decide,
   rateBatch_spec baseDB 1 9 30 exC3inputs none exC3batch exC3ts (by decide) (by decide) (by decide) (by decide) (by decide) (by decide) (by decide) (by decide)⟩

/-! ## C9: Leaderboard dense rank -/

theorem assignRanksGo_chain (prev : Int) (rk : Nat) (tid : Nat) (l : List TeamStateRow)
    (hc : List.Chain' (fun a b => b.pointsEarned ≤ a.pointsEarned) l)
    (hb : ∀ u ∈ l.head?, u.pointsEarned ≤ prev) :
    List.Chain' denseStep (⟨rk, tid, prev⟩ :: assignRanksGo prev rk l) := by
  induction l generalizing prev rk tid with
  | nil => simp [assignRanksGo]
  | cons t ts ih =>
    rw [List.chain'_cons'] at hc
    have hbnd : t.pointsEarned ≤ prev := hb t rfl
    unfold assignRanksGo
    by_cases he : t.pointsEarned = prev
    · rw [if_pos he]
      rw [List.chain'_cons]
      refine ⟨⟨le_of_eq he, fun _ => rfl, fun hlt => absurd he (ne_of_lt hlt)⟩, ?_⟩
      have htail := ih prev rk t.teamId hc.2 fun u hu => le_trans (hc.1 u hu) hbnd
      rw [he]
      exact htail
    · have hlt : t.pointsEarned < prev := lt_of_le_of_ne hbnd he
      rw [if_neg he]
      rw [List.chain'_cons]
      exact ⟨⟨le_of_lt hlt, fun heq => absurd heq he, fun _ => rfl⟩,
        ih t.pointsEarned (rk + 1) t.teamId hc.2 hc.1⟩

theorem assignRanks_chain (l : List TeamStateRow)
    (hc : List.Chain' (fun a b => b.pointsEarned ≤ a.pointsEarned) l) :
    List.Chain' denseStep (assignRanks l) := by
  cases l with
  | nil => simp [assignRanks]
  | cons t ts =>
    rw [List.chain'_cons'] at hc
    exact assignRanksGo_chain t.pointsEarned 1 t.teamId ts hc.2 hc.1

/-- C9: the leaderboard of `GetRoundStats` is a dense rank over teams by
`points_earned` descending: the first row has rank 1, points never increase
down the list, tied points share a rank and the next distinct (strictly
smaller) points value gets exactly the previous rank plus one; in particular
teams with points [30, 30, 20] produce ranks [1, 1, 2], not [1, 1, 3]. -/
theorem getRoundStats_dense_rank :
    (∀ db roundId,
      (∀ e ∈ (getRoundStats db roundId).head?, e.rank = 1) ∧
      List.Chain' denseStep (getRoundStats db roundId)) ∧
    (getRoundStats exC9 1).map LBEntry.rank = [1, 1, 2] ∧
    (getRoundStats exC9 1).map LBEntry.rank ≠ [1, 1, 3] := by
  refine ⟨fun db roundId => ⟨?_, ?_⟩, by decide, by decide⟩
  · intro e he
    cases hs : List.insertionSort lbLe (db.teamStates.filter fun t => t.roundId = roundId) with
    | nil => simp [getRoundStats, hs, assignRanks] at he
    | cons t ts =>
      simp only [getRoundStats, hs, assignRanks, List.head?_cons, Option.mem_def,
        Option.some.injEq] at he
      rw [← he]
  · apply assignRanks_chain
    refine List.Chain'.imp ?_ (List.Pairwise.chain' (List.sorted_insertionSort lbLe _))
    intro a b hab
    rcases hab with h | h
    · exact le_of_lt h
    · exact le_of_eq h.1

/-! ## C7: GetNextBatchForQC -/

theorem minSubmitted_eq_none {l : List Batch} (h : minSubmitted l = none) : l = [] := by
  cases l with
  | nil => rfl
  | cons b bs =>
    exfalso
    unfold minSubmitted at h
    cases hm : minSubmitted bs with
    | none =>
      rw [hm] at h
      exact Option.noConfusion h
    | some m =>
      rw [hm] at h
      dsimp only at h
      by_cases hle : b.submittedAt ≤ m.submittedAt
      · rw [if_pos hle] at h
        exact Option.noConfusion h
      · rw [if_neg hle] at h
        exact Option.noConfusion h

theorem minSubmitted_mem : ∀ {l : List Batch} {m : Batch}, minSubmitted l = some m → m ∈ l := by
  intro l
  induction l with
  | nil => intro m h; exact Option.noConfusion h
  | cons b bs ih =>
    intro m h
    unfold minSubmitted at h
    cases hm : minSubmitted bs with
    | none =>
      rw [hm] at h
      cases h
      exact List.mem_cons_self b bs
    | some m0 =>
      rw [hm] at h
      dsimp only at h
      by_cases hle : b.submittedAt ≤ m0.submittedAt
      · rw [if_pos hle] at h
        cases h
        exact List.mem_cons_self b bs
      · rw [if_neg hle] at h
        cases h
        exact List.mem_cons_of_mem b (ih hm)

theorem minSubmitted_le : ∀ {l : List Batch} {m : Batch}, minSubmitted l = some m →
    ∀ e ∈ l, m.submittedAt ≤ e.submittedAt := by
  intro l
  induction l with
  | nil => intro m _ e he; cases he
  | cons b bs ih =>
    intro m h e he
    unfold minSubmitted at h
    cases hm : minSubmitted bs with
    | none =>
      rw [hm] at h
      cases h
      rcases List.mem_cons.mp he with rfl | hbs
      · exact le_refl _
      · rw [minSubmitted_eq_none hm] at hbs
        cases hbs
    | some m0 =>
      rw [hm] at h
      dsimp only at h
      by_cases hle : b.submittedAt ≤ m0.submittedAt
      · rw [if_pos hle] at h
        cases h
        rcases List.mem_cons.mp he with rfl | hbs
        · exact le_refl _
        · exact le_trans hle (ih hm e hbs)
      · rw [if_neg hle] at h
        cases h
        rcases List.mem_cons.mp he with rfl | hbs
        · exact le_of_lt (lt_of_not_le hle)
        · exact ih hm e hbs

/-- C7: with primary-key-unique batch ids, `getNextBatchForQC` fails NotFound
(leaving the database unchanged) exactly when no SUBMITTED batch of the round
is unlocked or locked by this QC; otherwise it picks an eligible batch whose
`submitted_at` is minimal among all eligible batches, returns it, marked
locked by this QC at `now`, together with its jokes and the round's count of
still-SUBMITTED batches, and stores that same locked row. -/
theorem getNextBatchForQC_spec (db : DB) (roundId qcUserId now : Nat)
    (hnodup : (db.batches.map Batch.id).Nodup) :
    (eligibleBatches db roundId qcUserId = [] →
      getNextBatchForQC db roundId qcUserId now = (.error ⟨.notFound, "batch"⟩, db)) ∧
    (∀ b0, minSubmitted (eligibleBatches db roundId qcUserId) = some b0 →
      b0 ∈ eligibleBatches db roundId qcUserId ∧
      (∀ e ∈ eligibleBatches db roundId qcUserId, b0.submittedAt ≤ e.submittedAt) ∧
      (getNextBatchForQC db roundId qcUserId now).1 =
        Except.ok ({ b0 with lockedAt := some now, lockedByQc := some qcUserId },
          db.jokesOfBatch b0.id, db.submittedCount roundId) ∧
      ((getNextBatchForQC db roundId qcUserId now).2).findBatch b0.id =
        some { b0 with lockedAt := some now, lockedByQc := some qcUserId }) := by
  constructor
  · intro hemp
    simp [getNextBatchForQC, hemp, minSubmitted]
  · intro b0 hb0
    have hmem : b0 ∈ eligibleBatches db roundId qcUserId := minSubmitted_mem hb0
    have hmemb : b0 ∈ db.batches := by
      have := hmem
      simp only [eligibleBatches, List.mem_filter] at this
      exact this.1
    refine ⟨hmem, minSubmitted_le hb0, ?_, ?_⟩
    · simp only [getNextBatchForQC, hb0]
      have hcnt : (DB.submittedCount { db with batches := updateWhere (fun b => b.id = b0.id) (fun b => { b with lockedAt := some now, lockedByQc := some qcUserId }) db.batches } roundId) = db.submittedCount roundId :=
        length_filter_updateWhere _ _ _ _ fun x => rfl
      rw [hcnt]
    · simp only [getNextBatchForQC, hb0]
      show (updateWhere _ _ db.batches).find? _ = _
      rw [find?_updateWhere_self]
      · rw [find?_key_of_nodup Batch.id hnodup hmemb]
        rfl
      · exact fun x h2 => h2

/-- Witness for C7 at a concrete input: in `baseDB`, QC 9 asks for the next
batch of round 1; the single SUBMITTED batch 1 is selected, locked at 40, and
the queue count is 1. -/
theorem getNextBatchForQC_spec_witness :
    (baseDB.batches.map Batch.id).Nodup ∧
    ((eligibleBatches baseDB 1 9 = [] →
       getNextBatchForQC baseDB 1 9 40 = (.error ⟨.notFound, "batch"⟩, baseDB)) ∧
     (∀ b0, minSubmitted (eligibleBatches baseDB 1 9) = some b0 →
       b0 ∈ eligibleBatches baseDB 1 9 ∧
       (∀ e ∈ eligibleBatches baseDB 1 9, b0.submittedAt ≤ e.submittedAt) ∧
       (getNextBatchForQC baseDB 1 9 40).1 =
         Except.ok ({ b0 with lockedAt := some 40, lockedByQc := some 9 },
           baseDB.jokesOfBatch b0.id, baseDB.submittedCount 1) ∧
       ((getNextBatchForQC baseDB 1 9 40).2).findBatch b0.id =
         some { b0 with lockedAt := some 40, lockedByQc := some 9 })) :=
  ⟨by decide, getNextBatchForQC_spec baseDB 1 9 40 (by decide)⟩

/-! ## C6: Submit validation and no partial inserts -/

theorem ensureTeamRoundState_jokes (db : DB) (r t : Nat) :
    (ensureTeamRoundState db r t).jokes = db.jokes := by
  unfold ensureTeamRoundState
  split <;> rfl

theorem ensureTeamRoundState_batches (db : DB) (r t : Nat) :
    (ensureTeamRoundState db r t).batches = db.batches := by
  unfold ensureTeamRoundState
  split <;> rfl

theorem createBatch_failure_keeps_tables (db : DB) (roundId teamId : Nat)
    (jokes : List String) (now : Nat) (fate : TxFate) (e : Err)
    (h : (createBatch db roundId teamId jokes now fate).1 = Except.error e) :
    ((createBatch db roundId teamId jokes now fate).2).jokes = db.jokes ∧
    ((createBatch db roundId teamId jokes now fate).2).batches = db.batches := by
  cases fate
  · exact absurd h (by simp [createBatch])
  · exact ⟨rfl, rfl⟩
  · exact ⟨rfl, rfl⟩

theorem submit_failure_keeps_tables (db : DB) (userId roundId teamId : Nat)
    (jokes : List String) (now : Nat) (fate : TxFate) (e : Err)
    (h : (submit db userId roundId teamId jokes now fate).1 = Except.error e) :
    ((submit db userId roundId teamId jokes now fate).2).jokes = db.jokes ∧
    ((submit db userId roundId teamId jokes now fate).2).batches = db.batches := by
  by_cases h0 : jokes.length = 0
  · simp [submit, h0]
  · cases hu : db.findUser userId with
    | none => simp [submit, h0, hu]
    | some u =>
      by_cases hrole : u.role = some Role.jm
      · by_cases hteam : u.teamId = some teamId
        · cases hr : db.findRound roundId with
          | none => simp [submit, h0, hu, hrole, hteam, hr]
          | some round =>
            by_cases hact : round.status = RoundStatus.active
            · by_cases hlen : jokes.length = round.batchSize
              · have h0' : ¬(round.batchSize = 0) := hlen ▸ h0
                have h2 : submit db userId roundId teamId jokes now fate = createBatch (ensureTeamRoundState db roundId teamId) roundId teamId jokes now fate := by
                  simp [submit, h0, h0', hu, hrole, hteam, hr, hact, hlen]
                rw [h2] at h ⊢
                have h3 := createBatch_failure_keeps_tables (ensureTeamRoundState db roundId teamId) roundId teamId jokes now fate e h
                exact ⟨h3.1.trans (ensureTeamRoundState_jokes db roundId teamId),
                       h3.2.trans (ensureTeamRoundState_batches db roundId teamId)⟩
              · simp [submit, h0, hu, hrole, hteam, hr, hact, hlen]
            · simp [submit, h0, hu, hrole, hteam, hr, hact]
        · simp [submit, h0, hu, hrole, hteam]
      · simp [submit, h0, hu, hrole]

/-- C6: a JM on their own team submitting to an ACTIVE round with
`len(jokes) != round.batch_size` gets a Validation failure and the batch and
joke tables are untouched; moreover in every failure case of `submit`
(whatever the inputs or the transaction's fate) zero batches and zero jokes
are persisted — never a partial insert. -/
theorem submit_wrong_size_validation (db : DB) (userId roundId teamId : Nat)
    (jokes : List String) (now : Nat) (fate : TxFate) (u : User) (round : Round)
    (hu : db.findUser userId = some u) (hjm : u.role = some .jm)
    (hteam : u.teamId = some teamId)
    (hr : db.findRound roundId = some round) (hact : round.status = .active)
    (hlen : jokes.length ≠ round.batchSize) :
    (∃ m, (submit db userId roundId teamId jokes now fate).1 = .error ⟨.validation, m⟩) ∧
    (submit db userId roundId teamId jokes now fate).2 = db ∧
    (∀ db2 uid2 rid2 tid2 jokes2 now2 fate2 e,
       (submit db2 uid2 rid2 tid2 jokes2 now2 fate2).1 = Except.error e →
       ((submit db2 uid2 rid2 tid2 jokes2 now2 fate2).2).jokes = db2.jokes ∧
       ((submit db2 uid2 rid2 tid2 jokes2 now2 fate2).2).batches = db2.batches) := by
  refine ⟨?_, ?_, fun db2 uid2 rid2 tid2 jokes2 now2 fate2 e he =>
    submit_failure_keeps_tables db2 uid2 rid2 tid2 jokes2 now2 fate2 e he⟩
  · by_cases h0 : jokes.length = 0
    · exact ⟨"at least one joke required", by simp [submit, h0]⟩
    · exact ⟨"expected batch_size jokes", by simp [submit, h0, hu, hjm, hteam, hr, hact, hlen]⟩
  · by_cases h0 : jokes.length = 0
    · simp [submit, h0]
    · simp [submit, h0, hu, hjm, hteam, hr, hact, hlen]

/-- Witness for C6 at a concrete input: in `baseDB`, JM 7 of team 3 submits
one joke to ACTIVE round 1 whose batch size is 2. -/
theorem submit_wrong_size_validation_witness :
    baseDB.findUser 7 = some ⟨7, some .jm, some 3⟩ ∧
    (⟨7, some .jm, some 3⟩ : User).role = some .jm ∧
    (⟨7, some .jm, some 3⟩ : User).teamId = some 3 ∧
    baseDB.findRound 1 = some ⟨1, .active, 5, 2, some 10, none⟩ ∧
    (⟨1, .active, 5, 2, some 10, none⟩ : Round).status = .active ∧
    (["x"].length ≠ (⟨1, .active, 5, 2, some 10, none⟩ : Round).batchSize) ∧
    ((∃ m, (submit baseDB 7 1 3 ["x"] 50 .ok).1 = .error ⟨.validation, m⟩) ∧
     (submit baseDB 7 1 3 ["x"] 50 .ok).2 = baseDB ∧
     (∀ db2 uid2 rid2 tid2 jokes2 now2 fate2 e,
        (submit db2 uid2 rid2 tid2 jokes2 now2 fate2).1 = Except.error e →
        ((submit db2 uid2 rid2 tid2 jokes2 now2 fate2).2).jokes = db2.jokes ∧
        ((submit db2 uid2 rid2 tid2 jokes2 now2 fate2).2).batches = db2.batches)) :=
  ⟨by decide, by decide, by decide, by decide, by decide, by decide,
   submit_wrong_size_validation baseDB 7 1 3 ["x"] 50 .ok ⟨7, some .jm, some 3⟩ ⟨1, .active, 5, 2, some 10, none⟩ (by decide) (by decide) (by decide) (by decide) (by decide) (by decide)⟩

/-! ## C4: Buy budget checks and double-buy conflict -/

/-- C4 (amended): buying with an established budget fails Conflict
("insufficient budget") whenever the remaining budget is not strictly
positive; a successful buy returns and stores a budget decremented by exactly
one unit, which never goes below 0; and a second buy of the same (round,
customer, joke) triple after a successful one fails Conflict — with message
"already bought" when the remaining budget is still positive, but with
message "insufficient budget" when the first buy exhausted the budget,
because the budget check precedes the duplicate-purchase check. -/
theorem buyJoke_budget_and_conflict (db : DB) (r c j : Nat)
    (bg : BudgetRow) (pj : PublishedRow)
    (hbg : db.findBudget r c = some bg) :
    (bg.remainingBudget ≤ 0 →
      buyJoke db r c j .ok = (.error ⟨.conflict, "insufficient budget"⟩, db)) ∧
    (0 < bg.remainingBudget →
     (db.purchases.any fun p => p.roundId = r ∧ p.customerUserId = c ∧ p.jokeId = j) = false →
     db.findPublished j = some pj →
       (∃ p2, (buyJoke db r c j .ok).1 = Except.ok (p2, { bg with remainingBudget := bg.remainingBudget - 1 }, pj.teamId)) ∧
       ((buyJoke db r c j .ok).2).findBudget r c = some { bg with remainingBudget := bg.remainingBudget - 1 } ∧
       0 ≤ bg.remainingBudget - 1 ∧
       (buyJoke ((buyJoke db r c j .ok).2) r c j .ok).1 =
         .error ⟨.conflict, if bg.remainingBudget - 1 ≤ 0 then "insufficient budget" else "already bought"⟩) := by
  constructor
  · intro hz
    simp only [buyJoke, hbg]
    rw [if_pos hz]
  · intro hpos hnp hpj
    have hbg2 := findBudget_after_buy db r c j bg pj hbg hpos hnp hpj
    have hbg2' : ((buyJoke db r c j .ok).2).findBudget r c = some { bg with remainingBudget := bg.remainingBudget - 1 } := by
      rw [hbg2, hbg]
      show some _ = some _
      congr 1
    have hpur := purchases_after_buy db r c j bg pj hbg hpos hnp hpj
    refine ⟨?_, hbg2', by omega, ?_⟩
    · rw [buyJoke_ok_eq db r c j bg pj hbg hpos hnp hpj]
      exact ⟨_, rfl⟩
    · generalize hDB : (buyJoke db r c j TxFate.ok).2 = dbB at hbg2' hpur
      simp only [buyJoke, hbg2']
      by_cases hz2 : bg.remainingBudget - 1 ≤ 0
      · rw [if_pos hz2, if_pos hz2]
      · rw [if_neg hz2, if_neg hz2]
        rw [hpur, List.any_append, hnp]
        simp

/-- C4 counterexample: the claim as stated says the second of two buys of the
same (round, customer, joke) triple fails Conflict "already bought", but with
remaining budget 1 (`exC4cx`) the first buy succeeds, drops the budget to 0,
and the second buy fails Conflict "insufficient budget" instead — the budget
check runs before the duplicate check. -/
theorem buy_twice_message_counterexample :
    (buyJoke exC4cx 1 5 9 .ok).1 = Except.ok (⟨1, 1, 5, 9⟩, ⟨1, 5, 5, 0⟩, 3) ∧
    (buyJoke ((buyJoke exC4cx 1 5 9 .ok).2) 1 5 9 .ok).1 = .error ⟨.conflict, "insufficient budget"⟩ ∧
    (buyJoke ((buyJoke exC4cx 1 5 9 .ok).2) 1 5 9 .ok).1 ≠ .error ⟨.conflict, "already bought"⟩ := by
  decide

/-- Witness for C4's amended theorem at a concrete input: `baseDB` with
budget 5, customer 5, published joke 9 (team 3). -/
theorem buyJoke_budget_and_conflict_witness :
    baseDB.findBudget 1 5 = some ⟨1, 5, 5, 5⟩ ∧
    ((((5 : Int) ≤ 0) →
      buyJoke baseDB 1 5 9 .ok = (.error ⟨.conflict, "insufficient budget"⟩, baseDB)) ∧
     ((0 : Int) < 5 →
      (baseDB.purchases.any fun p => p.roundId = 1 ∧ p.customerUserId = 5 ∧ p.jokeId = 9) = false →
      baseDB.findPublished 9 = some ⟨9, 1, 3⟩ →
        (∃ p2, (buyJoke baseDB 1 5 9 .ok).1 = Except.ok (p2, ⟨1, 5, 5, 5 - 1⟩, 3)) ∧
        ((buyJoke baseDB 1 5 9 .ok).2).findBudget 1 5 = some ⟨1, 5, 5, 5 - 1⟩ ∧
        (0 : Int) ≤ 5 - 1 ∧
        (buyJoke ((buyJoke baseDB 1 5 9 .ok).2) 1 5 9 .ok).1 =
          .error ⟨.conflict, if (5 : Int) - 1 ≤ 0 then "insufficient budget" else "already bought"⟩)) :=
  ⟨by decide, buyJoke_budget_and_conflict baseDB 1 5 9 ⟨1, 5, 5, 5⟩ ⟨9, 1, 3⟩ (by decide)⟩

/-! ## C5: Buy then Return restores budget and points -/

/-- C5: for a customer with an established budget and a published joke, a
successful buy followed by a successful return of the same (round, customer,
joke) triple leaves the customer's remaining budget and the owning team's
`points_earned` at their exact pre-buy values. -/
theorem buy_then_return_restores (db : DB) (r c j : Nat)
    (bg : BudgetRow) (pj : PublishedRow) (ts : TeamStateRow)
    (hbg : db.findBudget r c = some bg)
    (hpos : 0 < bg.remainingBudget)
    (hnp : (db.purchases.any fun p => p.roundId = r ∧ p.customerUserId = c ∧ p.jokeId = j) = false)
    (hpj : db.findPublished j = some pj)
    (hts : db.findTeamState r pj.teamId = some ts) :
    (∃ v, (buyJoke db r c j .ok).1 = Except.ok v) ∧
    (∃ w, (returnJoke (buyJoke db r c j .ok).2 r c j .ok).1 = Except.ok w) ∧
    (((returnJoke (buyJoke db r c j .ok).2 r c j .ok).2).findBudget r c).map BudgetRow.remainingBudget = some bg.remainingBudget ∧
    (((returnJoke (buyJoke db r c j .ok).2 r c j .ok).2).findTeamState r pj.teamId).map TeamStateRow.pointsEarned = some ts.pointsEarned := by
  have hp2 := findPurchase_after_buy db r c j bg pj hbg hpos hnp hpj
  have hpj2 := findPublished_after_buy db r c j bg pj hbg hpos hnp hpj
  have hts2 := findTeamState_after_buy db r c j bg pj hbg hpos hnp hpj
  have hbg2 := findBudget_after_buy db r c j bg pj hbg hpos hnp hpj
  have hret := returnJoke_ok_eq _ r c j _ pj hp2 hpj2
  refine ⟨?_, ?_, ?_, ?_⟩
  · rw [buyJoke_ok_eq db r c j bg pj hbg hpos hnp hpj]
    exact ⟨_, rfl⟩
  · rw [hret]
    exact ⟨_, rfl⟩
  · rw [hret, findBudget_incrementRatedStats, findBudget_adjustBudget_self,
      findBudget_set_purchases, hbg2, hbg]
    simp
  · rw [hret, findTeamState_incrementRatedStats_self, findTeamState_adjustBudget,
      findTeamState_set_purchases, hts2, hts]
    simp

/-- Witness for C5 at a concrete input: in `baseDB` the buy/return pair on
published joke 9 restores the remaining budget to 5 and team 3's points to 0. -/
theorem buy_then_return_restores_witness :
    baseDB.findBudget 1 5 = some ⟨1, 5, 5, 5⟩ ∧
    (0 : Int) < 5 ∧
    (baseDB.purchases.any fun p => p.roundId = 1 ∧ p.customerUserId = 5 ∧ p.jokeId = 9) = false ∧
    baseDB.findPublished 9 = some ⟨9, 1, 3⟩ ∧
    baseDB.findTeamState 1 3 = some ⟨1, 3, 0, 0, 0, 0⟩ ∧
    ((∃ v, (buyJoke baseDB 1 5 9 .ok).1 = Except.ok v) ∧
     (∃ w, (returnJoke (buyJoke baseDB 1 5 9 .ok).2 1 5 9 .ok).1 = Except.ok w) ∧
     (((returnJoke (buyJoke baseDB 1 5 9 .ok).2 1 5 9 .ok).2).findBudget 1 5).map BudgetRow.remainingBudget = some 5 ∧
     (((returnJoke (buyJoke baseDB 1 5 9 .ok).2 1 5 9 .ok).2).findTeamState 1 3).map TeamStateRow.pointsEarned = some 0) :=
  ⟨by decide, by decide, by decide, by decide, by decide,
   buy_then_return_restores baseDB 1 5 9 ⟨1, 5, 5, 5⟩ ⟨9, 1, 3⟩ ⟨1, 3, 0, 0, 0, 0⟩ (by decide) (by decide) (by decide) (by decide) (by decide)⟩

end JokeFactory
